import Mathlib

/-!
Verification of the wire codec, command parser, storage and replication
handlers of a small Redis-like leader/follower server written in Rust
(sources under src/: message.rs, parser.rs, command_parser.rs, db.rs,
handler/client_server.rs, handler/replication.rs).

Modelling conventions.

Byte strings are `List Nat` (each entry one byte).  A Rust `String` is
modelled by the list of its UTF-8 bytes; `String::from_utf8` is modelled
by an executable UTF-8 validity checker over those bytes.

Machine integers: `usize` arithmetic that can overflow in the source
(`convert_to_number`) and `i64` arithmetic (`bytes_acknowledged`,
integer parsing casts) are modelled with explicit wrapping modulo
2 to the 64, matching the release-profile wrapping semantics of the
compiled binary.  Rust panics that do not depend on the profile
(out-of-bounds indexing and slicing, `unwrap` of an error,
`unimplemented!`, the out-of-bounds read caused by the `usize`
underflow of `data.len() - 1` on an empty slice) are modelled
explicitly by a dedicated `panicked` result constructor.

Time: instants are `Int` nanoseconds since the Unix epoch (chrono
`DateTime<Utc>` has nanosecond precision); a `PX t` expiry adds
`t * 1000000` nanoseconds.
-/

/-- `Message` (src/message.rs): the Frame type of the wire protocol.
`RdbFile` is the Snapshot variant. -/
inductive Message where
  | SimpleString (s : List Nat)
  | BulkString (s : List Nat)
  | NullBulkString
  | Integer (n : Int)
  | Array (items : List Message)
  | RdbFile (content : List Nat)

/-- Decimal digits (ASCII bytes, most significant first) of a natural
number, with explicit fuel to keep the recursion structural.  Mirrors
Rust `usize::to_string` / the digits of a nonnegative `i64`. -/
def natToStringAux : Nat → Nat → List Nat
  | 0, _ => []
  | f + 1, n => if n < 10 then [n + 48] else natToStringAux f (n / 10) ++ [n % 10 + 48]

/-- Decimal ASCII representation of a `Nat` (Rust `to_string`). -/
def natToString (n : Nat) : List Nat := natToStringAux (n + 1) n

/-- Decimal ASCII representation of an `Int`, with a leading minus sign
for negative values (Rust `i64::to_string`). -/
def intToString (i : Int) : List Nat :=
  if i < 0 then 45 :: natToString i.natAbs else natToString i.toNat

/-- Wrap an integer into the signed 64-bit range (two's complement),
used to model `i64`/`usize as i64` release-profile arithmetic. -/
def wrap64 (x : Int) : Int := (x + 2 ^ 63) % 2 ^ 64 - 2 ^ 63

/-- ASCII bytes of a string literal (used only with ASCII literals). -/
def ascii (s : String) : List Nat := s.data.map Char.toNat

/-- `add_cr_nl` (src/message.rs): append the CR LF terminator. -/
def add_cr_nl (data : List Nat) : List Nat := data ++ [13, 10]

/-- `add_len` (src/message.rs): decimal length followed by CR LF. -/
def add_len (len : Nat) : List Nat := add_cr_nl (natToString len)

mutual

/-- `Message::to_data` (src/message.rs): the canonical byte encoding of
a frame.  `RdbFile` is encoded like a bulk string but with no trailing
CR LF. -/
def toData : Message → List Nat
  | .SimpleString s => 43 :: add_cr_nl s
  | .BulkString s => 36 :: (add_len s.length ++ add_cr_nl s)
  | .NullBulkString => [36, 45, 49, 13, 10]
  | .Integer n => 58 :: add_cr_nl (intToString n)
  | .Array arr => 42 :: (add_len arr.length ++ listToData arr)
  | .RdbFile content => 36 :: (add_len content.length ++ content)

/-- Concatenation of the encodings of a list of frames (the loop in the
`Array` arm of `Message::to_data`). -/
def listToData : List Message → List Nat
  | [] => []
  | m :: rest => toData m ++ listToData rest

end

mutual

/-- Structural equality of frames (the derived `PartialEq` of
`Message` in src/message.rs), used for `HashMap` key comparison. -/
def beqMessage : Message → Message → Bool
  | .SimpleString s, .SimpleString t => s = t
  | .BulkString s, .BulkString t => s = t
  | .NullBulkString, .NullBulkString => true
  | .Integer n, .Integer k => n = k
  | .Array as, .Array bs => beqListMessage as bs
  | .RdbFile c, .RdbFile d => c = d
  | _, _ => false

/-- Elementwise equality of frame lists. -/
def beqListMessage : List Message → List Message → Bool
  | [], [] => true
  | a :: as, b :: bs => beqMessage a b && beqListMessage as bs
  | _, _ => false

end

/-- Induction over `Message` with the list of an `Array` handled via
membership. -/
theorem message_induction (P : Message → Prop)
    (h1 : ∀ s, P (.SimpleString s)) (h2 : ∀ s, P (.BulkString s)) (h3 : P .NullBulkString)
    (h4 : ∀ n, P (.Integer n)) (h5 : ∀ items, (∀ c ∈ items, P c) → P (.Array items))
    (h6 : ∀ c, P (.RdbFile c)) : ∀ m, P m :=
  fun m =>
    Message.rec (motive_1 := P) (motive_2 := fun l => ∀ c ∈ l, P c)
      h1 h2 h3 h4 (fun items ih => h5 items ih) h6
      (fun c hc => absurd hc (List.not_mem_nil c))
      (fun _ _ Ph Pt c hc => by
        rcases List.mem_cons.mp hc with h | h
        · exact h ▸ Ph
        · exact Pt c h)
      m

theorem beqMessage_refl : ∀ m, beqMessage m m = true := by
  intro m
  induction m using message_induction with
  | h1 s => simp [beqMessage]
  | h2 s => simp [beqMessage]
  | h3 => simp [beqMessage]
  | h4 n => simp [beqMessage]
  | h6 c => simp [beqMessage]
  | h5 items ih =>
    simp only [beqMessage]
    induction items with
    | nil => simp [beqListMessage]
    | cons a as ihl =>
      simp only [beqListMessage, Bool.and_eq_true]
      exact ⟨ih a (List.mem_cons_self a as), ihl fun c hc => ih c (List.mem_cons_of_mem a hc)⟩

example : toData (.Array [.NullBulkString, .Integer (-5)]) =
    [42, 50, 13, 10, 36, 45, 49, 13, 10, 58, 45, 53, 13, 10] := by
  simp [toData, listToData, add_len, add_cr_nl, intToString, natToString, natToStringAux]

/-- `ParseError` (src/parser.rs). `InvalidStringContent` carries the
offending bytes of the `FromUtf8Error`. -/
inductive ParseError where
  | InvalidStringContent (bs : List Nat)
  | InvalidString (bs : List Nat)
  | InvalidSizeContent (bs : List Nat)
  | UnknownMessage (c : Nat)
  | NoData

/-- Result of a decoder step: a value, a classified `ParseError`, or a
Rust panic. -/
inductive PResult (α : Type) where
  | panicked
  | fail (e : ParseError)
  | ok (a : α)

/-- Continuation-byte test for the UTF-8 checker. -/
def utf8Cont (b : Nat) : Bool := 128 ≤ b && b ≤ 191

/-- Executable UTF-8 validity check over bytes, modelling the success
condition of `String::from_utf8` (src/parser.rs uses it in
`parse_simple_string` and `parse_bulk_string`). -/
def utf8Valid : List Nat → Bool
  | [] => true
  | b :: rest =>
    if b ≤ 127 then utf8Valid rest
    else if 194 ≤ b && b ≤ 223 then
      match rest with
      | b2 :: rest2 => utf8Cont b2 && utf8Valid rest2
      | [] => false
    else if b = 224 then
      match rest with
      | b2 :: b3 :: rest3 => (160 ≤ b2 && b2 ≤ 191) && utf8Cont b3 && utf8Valid rest3
      | _ => false
    else if b = 237 then
      match rest with
      | b2 :: b3 :: rest3 => (128 ≤ b2 && b2 ≤ 159) && utf8Cont b3 && utf8Valid rest3
      | _ => false
    else if (225 ≤ b && b ≤ 236) || b = 238 || b = 239 then
      match rest with
      | b2 :: b3 :: rest3 => utf8Cont b2 && utf8Cont b3 && utf8Valid rest3
      | _ => false
    else if b = 240 then
      match rest with
      | b2 :: b3 :: b4 :: rest4 =>
        (144 ≤ b2 && b2 ≤ 191) && utf8Cont b3 && utf8Cont b4 && utf8Valid rest4
      | _ => false
    else if 241 ≤ b && b ≤ 243 then
      match rest with
      | b2 :: b3 :: b4 :: rest4 => utf8Cont b2 && utf8Cont b3 && utf8Cont b4 && utf8Valid rest4
      | _ => false
    else if b = 244 then
      match rest with
      | b2 :: b3 :: b4 :: rest4 =>
        (128 ≤ b2 && b2 ≤ 143) && utf8Cont b3 && utf8Cont b4 && utf8Valid rest4
      | _ => false
    else false

/-- Position of the first CR LF pair (the loop body of
`find_linebreak`, src/parser.rs lines 170-182): the loop inspects the
pairs `(data[i], data[i+1])` for `i < data.len() - 1`. -/
def findCRLF : List Nat → Option Nat
  | [] => none
  | [_] => none
  | a :: b :: rest =>
    if a = 13 && b = 10 then some 0 else (findCRLF (b :: rest)).map (· + 1)

/-- `find_linebreak` (src/parser.rs): returns the position of the CR of
the first CR LF.  On an empty slice the loop bound `data.len() - 1`
underflows the `usize`, so the first iteration reads `data[0]` out of
bounds: a panic in both debug and release profiles. -/
def find_linebreak (data : List Nat) : PResult (Option Nat) :=
  if data.isEmpty then .panicked else .ok (findCRLF data)

/-- Accumulator loop of `convert_to_number` with release-profile
wrapping of the `usize` multiply-add. -/
def convertToNumberGo (orig : List Nat) (acc : Nat) : List Nat → PResult Nat
  | [] => .ok acc
  | c :: rest =>
    if c < 48 || 57 < c then .fail (.InvalidSizeContent orig)
    else convertToNumberGo orig ((acc * 10 + (c - 48)) % 2 ^ 64) rest

/-- `convert_to_number` (src/parser.rs): decimal digits to `usize`. -/
def convert_to_number (data : List Nat) : PResult Nat := convertToNumberGo data 0 data

/-- `read_number` (src/parser.rs): a decimal line terminated by CR LF;
returns the number and the bytes after the terminator. -/
def read_number (data : List Nat) : PResult (Nat × List Nat) :=
  match find_linebreak data with
  | .panicked => .panicked
  | .fail e => .fail e
  | .ok none => .fail (.InvalidSizeContent data)
  | .ok (some pos) =>
    match convert_to_number (data.take pos) with
    | .ok size => .ok (size, data.drop (pos + 2))
    | .fail e => .fail e
    | .panicked => .panicked

/-- `parse_simple_string` (src/parser.rs): bytes up to the first CR LF,
validated as UTF-8. -/
def parse_simple_string (data : List Nat) : PResult (Message × List Nat) :=
  match find_linebreak data with
  | .panicked => .panicked
  | .fail e => .fail e
  | .ok none => .fail (.InvalidString data)
  | .ok (some pos) =>
    if utf8Valid (data.take pos) then .ok (.SimpleString (data.take pos), data.drop (pos + 2))
    else .fail (.InvalidStringContent (data.take pos))

/-- ASCII bytes of the 5-byte magic REDIS. -/
def redisMagic : List Nat := [82, 69, 68, 73, 83]

/-- Plain bulk-string arm of `parse_bulk_string`: slice `data[..size]`
(panics when `size` overruns), UTF-8 validation, then
`split_off(size + 2)` (panics when the terminator overruns). -/
def bulkStringBranch (size : Nat) (d : List Nat) : PResult (Message × List Nat) :=
  if d.length < size then .panicked
  else if utf8Valid (d.take size) then
    if d.length < size + 2 then .panicked
    else .ok (.BulkString (d.take size), d.drop (size + 2))
  else .fail (.InvalidStringContent (d.take size))

/-- `parse_bulk_string` (src/parser.rs lines 69-102).  The snapshot
condition is modelled exactly as written in the source:
`size > 5 && (data.len() == size || &data[size + 1..size + 2] != b"\r\n") && &data[..5] == REDIS`.
The middle comparison puts a ONE-byte slice against the TWO bytes CR
LF, so it is true whenever the indexing does not panic (slices of
different lengths are never equal); it panics when
`size + 2 > data.len()` and `data.len() != size`. -/
def parse_bulk_string (data : List Nat) : PResult (Message × List Nat) :=
  if data.isEmpty then .fail .NoData
  else if data.head? = some 45 then
    if data.length < 4 then .panicked
    else if (data.drop 1).take 3 ≠ [49, 13, 10] then .fail (.InvalidSizeContent data)
    else .ok (.NullBulkString, data.drop 4)
  else
    match read_number data with
    | .panicked => .panicked
    | .fail e => .fail e
    | .ok (size, d) =>
      if 5 < size then
        if d.length = size then
          if d.take 5 = redisMagic then .ok (.RdbFile (d.take size), d.drop size)
          else bulkStringBranch size d
        else if d.length < size + 2 then .panicked
        else if d.take 5 = redisMagic then .ok (.RdbFile (d.take size), d.drop size)
        else bulkStringBranch size d
      else bulkStringBranch size d

/-- `parse_integer` (src/parser.rs): optional sign, then a decimal
line; `data[0]` panics on an empty slice; the `usize`-to-`i64` cast and
the negation wrap in the release profile. -/
def parse_integer (data : List Nat) : PResult (Message × List Nat) :=
  match data with
  | [] => .panicked
  | b :: _ =>
    let negative := b = 45
    let rest := if b = 45 || b = 43 then data.drop 1 else data
    match read_number rest with
    | .panicked => .panicked
    | .fail e => .fail e
    | .ok (num, after) =>
      if negative then .ok (.Integer (wrap64 (-(wrap64 num))), after)
      else .ok (.Integer (wrap64 num), after)

/-- Fuel-indexed parser of exactly `n` consecutive frames.  One frame
is the body of `parse` (src/parser.rs lines 43-56: dispatch on the type
byte after `split_to(1)`); for an `Array` the declared count of child
frames is parsed recursively (`parse_array`, lines 127-144).  The fuel
only bounds the recursion depth; the wrappers below always supply
enough fuel, and `parseManyF_encode` proves adequacy. -/
def parseManyF : Nat → Nat → List Nat → PResult (List Message × List Nat)
  | _, 0, data => .ok ([], data)
  | 0, _ + 1, _ => .panicked
  | f + 1, n + 1, data =>
    match data with
    | [] => .fail .NoData
    | t :: rest0 =>
      let one : PResult (Message × List Nat) :=
        if t = 43 then parse_simple_string rest0
        else if t = 36 then parse_bulk_string rest0
        else if t = 58 then parse_integer rest0
        else if t = 42 then
          match read_number rest0 with
          | .panicked => .panicked
          | .fail e => .fail e
          | .ok (array_len, d) =>
            match parseManyF f array_len d with
            | .ok (items, r) => .ok (.Array items, r)
            | .fail e => .fail e
            | .panicked => .panicked
        else .fail (.UnknownMessage t)
      match one with
      | .ok (m, r) =>
        match parseManyF f n r with
        | .ok (ms, rr) => .ok (m :: ms, rr)
        | .fail e => .fail e
        | .panicked => .panicked
      | .fail e => .fail e
      | .panicked => .panicked

/-- `parse` (src/parser.rs lines 43-56): a single frame and the
unconsumed tail.  `parseManyF _ 1 _` returns a singleton whenever it
succeeds (`parseManyF_ok_length` below), so the empty-list arm is
dead. -/
def parse (data : List Nat) : PResult (Message × List Nat) :=
  if data.isEmpty then .fail .NoData
  else
    match parseManyF (data.length + 1) 1 data with
    | .ok (m :: _, rest) => .ok (m, rest)
    | .ok ([], _) => .panicked
    | .fail e => .fail e
    | .panicked => .panicked

/-- Fuel-indexed loop of `parse_data`; each iteration parses one frame
from the front of the remaining buffer. -/
def parseDataF : Nat → List Nat → PResult (List Message)
  | 0, _ => .panicked
  | f + 1, data =>
    if data.isEmpty then .ok []
    else
      match parse data with
      | .ok (m, rest) =>
        match parseDataF f rest with
        | .ok ms => .ok (m :: ms)
        | .fail e => .fail e
        | .panicked => .panicked
      | .fail e => .fail e
      | .panicked => .panicked

/-- `parse_data` (src/parser.rs lines 27-41): all frames of a buffer. -/
def parse_data (data : List Nat) : PResult (List Message) :=
  parseDataF (data.length + 1) data

example : parse (ascii "+simple\r\n") = .ok (.SimpleString (ascii "simple"), []) := rfl

example : parse_data (ascii "*3\r\n$3\r\nSET\r\n$3\r\nbar\r\n$3\r\n456\r\n*3\r\n$3\r\nSET\r\n$3\r\nbaz\r\n$3\r\n789\r\n") =
    .ok [.Array [.BulkString (ascii "SET"), .BulkString (ascii "bar"), .BulkString (ascii "456")],
         .Array [.BulkString (ascii "SET"), .BulkString (ascii "baz"), .BulkString (ascii "789")]] := rfl

example : parse_bulk_string (ascii "12\r\nHello\r\nThere\r\n->x") =
    .ok (.BulkString (ascii "Hello\r\nThere"), ascii "->x") := rfl

example : parse_bulk_string (ascii "-1\r\n") = .ok (.NullBulkString, []) := rfl

example : parse_integer (ascii "-1939\r\n") = .ok (.Integer (-1939), []) := rfl

example : parse_integer (ascii "+234\r\nq") = .ok (.Integer 234, ascii "q") := rfl

/-- `ServerRole` (src/server.rs / main). -/
inductive ServerRole where
  | Leader
  | Follower

/-- `ServerConfig`: role, replication id, offset, listening port. -/
structure ServerConfig where
  role : ServerRole
  master_replid : List Nat
  master_repl_offset : Int
  listener_port : Nat

/-- `Command` (src/command_parser.rs).  Modelled from the spec: the
`name`/`value` fields of `Replconf` and the `Wait` variant follow
spec section 4.3, because the copy of command_parser.rs under src/ is a
stale revision (a unit `Replconf` and no `Wait`) that does not type
against its caller handler/replication.rs, which matches
`Command::Replconf { name, value }` and `Command::Wait`.  All other
variants are exactly the source ones. -/
inductive Command where
  | Ping
  | Echo (m : Message)
  | Set (key : Message) (value : Message) (expire_time : Option Int)
  | Get (key : Message)
  | Info (sections : List Message)
  | Replconf (name : List Nat) (value : Message)
  | Psync
  | Wait

/-- Errors raised (via `anyhow::bail` and friends) by the command
parser, the store and the handlers. -/
inductive Err where
  | unknownMessageForCommand (m : Message)
  | missingFirstMessage
  | unknownCommand (word : List Nat)
  | unknownCommandType (m : Message)
  | unknownExpireTimeMessage (m : Message)
  | replconfArgsMalformed (vec : List Message)
  | unknownSectionType (sections : List Message)
  | onlyGetackImplemented
  | wrongCommandForReplication (formatted : Message)
  | timedeltaConstruction

/-- Result of an engine-side operation: a value, an `anyhow` error, or
a Rust panic. -/
inductive RRes (α : Type) where
  | panicked
  | fail (e : Err)
  | ok (a : α)

/-- `str::to_uppercase`, modelled on ASCII bytes only (every command
word and Replconf name compared in the source is ASCII; theorems that
quantify over words carry an ASCII hypothesis). -/
def to_uppercase_ascii (s : List Nat) : List Nat :=
  s.map fun b => if 97 ≤ b && b ≤ 122 then b - 32 else b

/-- Rust `Vec` indexing `v[n]`: panics when out of bounds. -/
def vecIdx (l : List Message) (n : Nat) : RRes Message :=
  match l.get? n with
  | some m => .ok m
  | none => .panicked

/-- Rust `str::parse::<i64>`: optional single sign, one or more ASCII
digits, value within the signed 64-bit range; `none` models `Err`. -/
def parse_i64 (s : List Nat) : Option Int :=
  let core := match s with
    | 45 :: r => (some true, r)
    | 43 :: r => (some false, r)
    | r => (none, r)
  let neg := core.1 = some true
  let ds := core.2
  if ds.isEmpty || !(ds.all fun c => 48 ≤ c && c ≤ 57) then none
  else
    let n : Int := ds.foldl (fun a c => a * 10 + ((c : Int) - 48)) 0
    let v := if neg then -n else n
    if -(2 ^ 63) ≤ v && v < 2 ^ 63 then some v else none

/-- `get_expire_time` (src/command_parser.rs lines 119-130): when a
fourth element exists (whatever it is), `messages[4]` is read (panics
when absent) and parsed with `.unwrap()` (panics on a parse error). -/
def get_expire_time (messages : List Message) : RRes (Option Int) :=
  match messages.get? 3 with
  | none => .ok none
  | some _ =>
    match messages.get? 4 with
    | none => .panicked
    | some (Message.BulkString v) =>
      match parse_i64 v with
      | some t => .ok (some t)
      | none => .panicked
    | some m => .fail (.unknownExpireTimeMessage m)

/-- Modelled from the spec: the REPLCONF arm of the command parser
(spec section 4.3, `Replconf(name, value)` from the elements after the
command word); the stale command_parser.rs under src/ has a unit
`Replconf` that ignores the arguments and cannot feed the GETACK check
of handler/replication.rs. -/
def parse_replconf_args (vec : List Message) : RRes Command :=
  match vec.get? 1, vec.get? 2 with
  | some (Message.BulkString name), some v => .ok (.Replconf name v)
  | _, _ => .fail (.replconfArgsMalformed vec)

/-- `handle_array` (src/command_parser.rs lines 85-117): dispatch on
the uppercased first bulk string.  ECHO, SET and GET index `vec[1]`
and `vec[2]` directly and so panic on short arrays. -/
def handle_array (vec : List Message) : RRes Command :=
  match vec.head? with
  | none => .fail .missingFirstMessage
  | some (Message.BulkString command_string) =>
    let u := to_uppercase_ascii command_string
    if u = ascii "PING" then .ok .Ping
    else if u = ascii "ECHO" then
      match vecIdx vec 1 with
      | .ok m => .ok (.Echo m)
      | .fail e => .fail e
      | .panicked => .panicked
    else if u = ascii "SET" then
      match vecIdx vec 1 with
      | .ok key =>
        match vecIdx vec 2 with
        | .ok value =>
          match get_expire_time vec with
          | .ok expire_time => .ok (.Set key value expire_time)
          | .fail e => .fail e
          | .panicked => .panicked
        | .fail e => .fail e
        | .panicked => .panicked
      | .fail e => .fail e
      | .panicked => .panicked
    else if u = ascii "GET" then
      match vecIdx vec 1 with
      | .ok key => .ok (.Get key)
      | .fail e => .fail e
      | .panicked => .panicked
    else if u = ascii "INFO" then
      match vec.get? 1 with
      | some ele => .ok (.Info [ele])
      | none => .ok (.Info [])
    else if u = ascii "REPLCONF" then parse_replconf_args vec
    else if u = ascii "PSYNC" then .ok .Psync
    else if u = ascii "WAIT" then .ok .Wait
    else .fail (.unknownCommand command_string)
  | some m => .fail (.unknownCommandType m)

/-- `parse_command` (src/command_parser.rs lines 78-83). -/
def parse_command (message : Message) : RRes Command :=
  match message with
  | .Array vec =>
    if vec.length > 0 then handle_array vec else .fail (.unknownMessageForCommand message)
  | m => .fail (.unknownMessageForCommand m)

/-- `Command::to_message` (src/command_parser.rs lines 25-55).  The
`Set` arm with an expiry pushes the literal `SET` (not `PX`) before the
expiry digits, exactly as the source does; `Replconf`, `Psync` and
`Info` hit `unimplemented!()`, a panic.  `Wait` is modelled from the
spec as reserved and unimplemented like its peers. -/
def Command.to_message : Command → RRes Message
  | .Ping => .ok (.Array [.BulkString (ascii "PING")])
  | .Echo m => .ok (.Array [.BulkString (ascii "ECHO"), m])
  | .Get key => .ok (.Array [.BulkString (ascii "GET"), key])
  | .Set key value expire_time =>
    .ok (.Array ([.BulkString (ascii "SET"), key, value] ++
      (match expire_time with
       | some time => [.BulkString (ascii "SET"), .BulkString (intToString time)]
       | none => [])))
  | .Replconf _ _ => .panicked
  | .Psync => .panicked
  | .Info _ => .panicked
  | .Wait => .panicked

/-- `Command::get_ping_command`. -/
def get_ping_command : Message := .Array [.BulkString (ascii "PING")]

/-- `Command::get_replconf_command` specialised to byte-list
arguments (the generic version takes any `ToString`). -/
def get_replconf_command (name value : List Nat) : Message :=
  .Array [.BulkString (ascii "REPLCONF"), .BulkString name, .BulkString value]

/-- The store contents: association list from key frame to value frame
and optional absolute expiry instant (`HashMap<Message, (Message,
Option<DateTime<Utc>>)>` of src/db.rs); insertion conses, lookup takes
the first hit, which models the overwrite semantics of
`HashMap::insert`. -/
def Store : Type := List (Message × Message × Option Int)

/-- First entry whose key equals the probe (`HashMap::get`). -/
def store_lookup : Store → Message → Option (Message × Option Int)
  | [], _ => none
  | (k, e) :: rest, key => if beqMessage k key then some e else store_lookup rest key

/-- Latest instant representable by a chrono `DateTime` in nanoseconds
since the Unix epoch: NaiveDate::MAX is 262142-12-31 (one year of
headroom under the 2 to the 18 year field bound), which is day
95026236 after 1970-01-01 in the proleptic Gregorian calendar, at
23:59:59.999999999. -/
def dtMaxNs : Int := 8210266876799999999999

/-- Earliest chrono `DateTime` instant in nanoseconds since the epoch:
NaiveDate::MIN is -262143-01-01, day -96465292 from 1970-01-01. -/
def dtMinNs : Int := -8334601228800000000000

/-- `Db::get` (src/db.rs lines 20-34): read-only lookup; a present
entry whose expiry has passed yields `NullBulkString` (the entry is not
removed). -/
def db_get (storage : Store) (now : Int) (key : Message) : Option Message :=
  match store_lookup storage key with
  | none => none
  | some (m, expire_date) =>
    match expire_date with
    | none => some m
    | some e => if now ≤ e then some m else some .NullBulkString

/-- `Db::set` (src/db.rs lines 37-59).  `TimeDelta::try_milliseconds`
returns `None` exactly for `i64::MIN` (the only `i64` outside
`TimeDelta::MIN ..= TimeDelta::MAX`), which the source turns into a
`bail!`; `Utc::now().add(delta)` panics when the sum leaves the
`DateTime` range. -/
def db_set (storage : Store) (now : Int) (key value : Message)
    (expire_milliseconds : Option Int) : RRes Store :=
  match expire_milliseconds with
  | none => .ok ((key, value, none) :: storage)
  | some millis =>
    if millis = -(2 ^ 63) then .fail .timedeltaConstruction
    else
      let expiry := now + millis * 1000000
      if expiry < dtMinNs || dtMaxNs < expiry then .panicked
      else .ok ((key, value, some expiry) :: storage)

/-- The fixed 88-byte snapshot payload emitted by the leader
(`get_rdb_file`, src/handler/client_server.rs lines 94-101, hex
decoded). -/
def rdb_file_bytes : List Nat :=
  [82, 69, 68, 73, 83, 48, 48, 49, 49, 250, 9, 114, 101, 100, 105, 115, 45, 118, 101, 114,
   5, 55, 46, 50, 46, 48, 250, 10, 114, 101, 100, 105, 115, 45, 98, 105, 116, 115, 192, 64,
   250, 5, 99, 116, 105, 109, 101, 194, 109, 8, 188, 101, 250, 8, 117, 115, 101, 100, 45,
   109, 101, 109, 194, 176, 196, 16, 0, 250, 8, 97, 111, 102, 45, 98, 97, 115, 101, 192, 0,
   255, 240, 110, 59, 254, 192, 255, 90, 162]

/-- `build_replication_info` (src/handler/client_server.rs): a bulk
string with the three role lines joined by LF. -/
def build_replication_info (config : ServerConfig) : Message :=
  .BulkString (ascii "role:" ++
    (match config.role with
     | ServerRole.Leader => ascii "master"
     | ServerRole.Follower => ascii "slave") ++
    [10] ++ ascii "master_replid:" ++ config.master_replid ++
    [10] ++ ascii "master_repl_offset:" ++ intToString config.master_repl_offset)

/-- Mutable per-connection state of the leader `MessageHandler`:
the shared store plus the `replication_client_ack` flag. -/
structure HandlerState where
  store : Store
  replication_client_ack : Bool

/-- `MessageHandler::handle` (src/handler/client_server.rs lines
38-80).  Returns the new state, the reply frames, and the frames
published to the broadcast channel (`distribute_message`).  The `Set`
arm mutates the store first and then publishes
`command.clone().to_message()`; `Wait` is modelled from the spec as
reserved (no leader implementation, spec section 9), a panic like the
`unimplemented!()` arms of `to_message`. -/
def MessageHandler.handle (config : ServerConfig) (st : HandlerState) (now : Int)
    (message : Message) : RRes (HandlerState × List Message × List Message) :=
  match parse_command message with
  | .panicked => .panicked
  | .fail e => .fail e
  | .ok command =>
    match command with
    | .Ping => .ok (st, [.BulkString (ascii "PONG")], [])
    | .Echo m => .ok (st, [m], [])
    | .Get key =>
      match db_get st.store now key with
      | some value => .ok (st, [value], [])
      | none => .ok (st, [.NullBulkString], [])
    | .Set key value expire_time =>
      match db_set st.store now key value expire_time with
      | .panicked => .panicked
      | .fail e => .fail e
      | .ok store2 =>
        match Command.to_message (.Set key value expire_time) with
        | .panicked => .panicked
        | .fail e => .fail e
        | .ok distributed =>
          .ok (⟨store2, st.replication_client_ack⟩, [.SimpleString (ascii "OK")], [distributed])
    | .Info sections =>
      match sections with
      | [s0] =>
        if beqMessage s0 (.BulkString (ascii "replication")) then
          .ok (st, [build_replication_info config], [])
        else .fail (.unknownSectionType sections)
      | _ => .fail (.unknownSectionType sections)
    | .Replconf _ _ => .ok (st, [.SimpleString (ascii "OK")], [])
    | .Psync =>
      .ok (⟨st.store, true⟩,
        [.SimpleString (ascii "FULLRESYNC " ++ config.master_replid ++ ascii " 0"),
         .RdbFile rdb_file_bytes], [])
    | .Wait => .panicked

/-- Follower-side handler state: the `bytes_acknowledged` counter
(`i64`, kept wrapped). -/
structure ReplicationHandler where
  bytes_acknowledged : Int

/-- `ReplicationHandler::handle` (src/handler/replication.rs lines
25-54).  The counter is bumped by the serialized length of the frame
BEFORE the frame is parsed; a GETACK replies with the pre-increment
value.  For every command other than Ping, Set and Replconf the bail
formats `command.to_message()`, which is `unimplemented!()` (a panic)
for `Info`, `Psync` and `Wait`. -/
def ReplicationHandler.handle (db : Store) (now : Int) (h : ReplicationHandler)
    (message : Message) : RRes (ReplicationHandler × Store × Option Message × List Message) :=
  let previously_acknowledged := h.bytes_acknowledged
  let h2 : ReplicationHandler := ⟨wrap64 (h.bytes_acknowledged + (toData message).length)⟩
  match parse_command message with
  | .panicked => .panicked
  | .fail e => .fail e
  | .ok command =>
    match command with
    | .Ping => .ok (h2, db, none, [])
    | .Set key value expire_time =>
      match db_set db now key value expire_time with
      | .panicked => .panicked
      | .fail e => .fail e
      | .ok db2 =>
        match Command.to_message (.Set key value expire_time) with
        | .panicked => .panicked
        | .fail e => .fail e
        | .ok distributed => .ok (h2, db2, none, [distributed])
    | .Replconf name _ =>
      if to_uppercase_ascii name ≠ ascii "GETACK" then .fail .onlyGetackImplemented
      else
        .ok (h2, db, some (get_replconf_command (ascii "ACK")
          (intToString previously_acknowledged)), [])
    | other =>
      match Command.to_message other with
      | .ok formatted => .fail (.wrongCommandForReplication formatted)
      | .fail e => .fail e
      | .panicked => .panicked

/-- The loop of `handle_messages` (src/replication_client.rs lines
85-93) over a batch of frames, tracking the handler state and the
store; replies and republished frames are not accumulated here. -/
def runRepl (now : Int) : Store → ReplicationHandler → List Message → RRes (ReplicationHandler × Store)
  | db, h, [] => .ok (h, db)
  | db, h, m :: ms =>
    match ReplicationHandler.handle db now h m with
    | .ok (h2, db2, _, _) => runRepl now db2 h2 ms
    | .fail e => .fail e
    | .panicked => .panicked

mutual

/-- The domain of the amended round-trip property: frames with no
`RdbFile` (Snapshot) inside, whose string payloads are valid UTF-8 (the
invariant of Rust `String`), whose `SimpleString` payloads contain no
CR LF pair, whose `BulkString` payloads of length over 5 do not begin
with the REDIS magic, whose integers are in the signed 64-bit range,
and whose lengths fit a `usize`. -/
def wfNoSnapshot : Message → Bool
  | .SimpleString s => utf8Valid s && (findCRLF s).isNone
  | .BulkString s =>
    utf8Valid s && decide (s.length < 2 ^ 64) &&
      (decide (s.length ≤ 5) || decide (s.take 5 ≠ redisMagic))
  | .NullBulkString => true
  | .Integer n => decide (-(2 ^ 63) ≤ n) && decide (n < 2 ^ 63)
  | .Array arr => decide (arr.length < 2 ^ 64) && wfListNoSnapshot arr
  | .RdbFile _ => false

/-- `wfNoSnapshot` for every member of a list of frames. -/
def wfListNoSnapshot : List Message → Bool
  | [] => true
  | m :: rest => wfNoSnapshot m && wfListNoSnapshot rest

end

theorem toData_length_pos : ∀ m, 0 < (toData m).length := by
  intro m
  cases m <;> simp [toData, add_cr_nl, add_len]

theorem natToStringAux_digits :
    ∀ f n, ∀ b ∈ natToStringAux f n, 48 ≤ b ∧ b ≤ 57 := by
  intro f
  induction f with
  | zero => intro n b hb; simp [natToStringAux] at hb
  | succ f ih =>
    intro n b hb
    by_cases h : n < 10
    · simp [natToStringAux, h] at hb
      omega
    · simp [natToStringAux, h] at hb
      rcases hb with hb | hb
      · exact ih _ b hb
      · have : n % 10 < 10 := Nat.mod_lt _ (by omega)
        omega

theorem natToString_digits : ∀ n, ∀ b ∈ natToString n, 48 ≤ b ∧ b ≤ 57 :=
  fun n => natToStringAux_digits (n + 1) n

theorem natToStringAux_ne_nil (f n : Nat) (h : 0 < f) : natToStringAux f n ≠ [] := by
  match f, h with
  | f + 1, _ =>
    by_cases h10 : n < 10 <;> simp [natToStringAux, h10]

theorem natToString_ne_nil (n : Nat) : natToString n ≠ [] :=
  natToStringAux_ne_nil (n + 1) n (by omega)

theorem findCRLF_digits_none :
    ∀ s, (∀ b ∈ s, 48 ≤ b ∧ b ≤ 57) → findCRLF s = none := by
  intro s
  induction s with
  | nil => intro _; rfl
  | cons a rest ih =>
    intro h
    match rest with
    | [] => rfl
    | b :: rest2 =>
      have ha : 48 ≤ a ∧ a ≤ 57 := h a (by simp)
      have hcond : (a = 13 && b = 10) = false := by
        simp only [Bool.and_eq_false_iff, decide_eq_false_iff_not]
        left; omega
      simp only [findCRLF, hcond, if_false]
      rw [ih (fun c hc => h c (List.mem_cons_of_mem a hc))]
      rfl

theorem findCRLF_append_crlf :
    ∀ s t, findCRLF s = none → findCRLF (s ++ 13 :: 10 :: t) = some s.length := by
  intro s
  induction s with
  | nil => intro t _; rfl
  | cons a rest ih =>
    intro t hs
    match rest with
    | [] =>
      have hcond : (a = 13 && (13 : Nat) = 10) = false := by simp
      simp only [List.nil_append, List.cons_append, findCRLF, hcond, if_false]
      rfl
    | b :: rest2 =>
      have hsplit : ¬(a = 13 ∧ b = 10) := by
        intro ⟨h1, h2⟩
        subst h1; subst h2
        simp [findCRLF] at hs
      have hcond : (a = 13 && b = 10) = false := by
        simp only [Bool.and_eq_false_iff, decide_eq_false_iff_not]
        by_cases h1 : a = 13
        · right; intro h2; exact hsplit ⟨h1, h2⟩
        · left; exact h1
      have hrest : findCRLF (b :: rest2) = none := by
        simp only [findCRLF, hcond, if_false] at hs
        cases hfind : findCRLF (b :: rest2) with
        | none => rfl
        | some k => rw [hfind] at hs; simp at hs
      simp [List.cons_append, findCRLF, hcond]
      exact (ih t hrest).trans (by simp)



/-- Big-endian decimal value of a digit byte list, starting from an
accumulator (the pure value computed by `convert_to_number` when no
wrap occurs). -/
def digitsVal (acc : Nat) (l : List Nat) : Nat :=
  l.foldl (fun a c => a * 10 + (c - 48)) acc

theorem digitsVal_ge : ∀ l acc, acc ≤ digitsVal acc l := by
  intro l
  induction l with
  | nil => intro acc; exact Nat.le_refl acc
  | cons c rest ih =>
    intro acc
    have h1 : digitsVal acc (c :: rest) = digitsVal (acc * 10 + (c - 48)) rest := rfl
    have h2 : acc ≤ acc * 10 + (c - 48) := by omega
    exact h2.trans (h1 ▸ ih (acc * 10 + (c - 48)))

theorem convertToNumberGo_eval :
    ∀ l orig acc, (∀ c ∈ l, 48 ≤ c ∧ c ≤ 57) → digitsVal acc l < 2 ^ 64 →
      convertToNumberGo orig acc l = .ok (digitsVal acc l) := by
  intro l
  induction l with
  | nil => intro orig acc _ _; rfl
  | cons c rest ih =>
    intro orig acc hd hv
    have hc : 48 ≤ c ∧ c ≤ 57 := hd c (List.mem_cons_self c rest)
    have hcond : (c < 48 || 57 < c) = false := by
      simp only [Bool.or_eq_false_iff, decide_eq_false_iff_not]
      omega
    have hstep : digitsVal acc (c :: rest) = digitsVal (acc * 10 + (c - 48)) rest := rfl
    have hlt : acc * 10 + (c - 48) < 2 ^ 64 :=
      Nat.lt_of_le_of_lt (hstep ▸ digitsVal_ge rest (acc * 10 + (c - 48))) (hstep ▸ hv)
    have hmod : (acc * 10 + (c - 48)) % 2 ^ 64 = acc * 10 + (c - 48) := Nat.mod_eq_of_lt hlt
    simp only [convertToNumberGo, hcond, Bool.false_eq_true, if_false, hmod]
    rw [ih orig (acc * 10 + (c - 48)) (fun x hx => hd x (List.mem_cons_of_mem c hx))
      (hstep ▸ hv), hstep]

theorem natToStringAux_val :
    ∀ f n acc, n < f →
      digitsVal acc (natToStringAux f n) = acc * 10 ^ (natToStringAux f n).length + n := by
  intro f
  induction f using Nat.strong_induction_on with
  | _ f ih =>
    intro n acc hn
    match f, hn with
    | f + 1, _ =>
      by_cases h10 : n < 10
      · simp only [natToStringAux, h10, if_true]
        show digitsVal acc [n + 48] = acc * 10 ^ 1 + n
        simp [digitsVal]
      · have hrec : n / 10 < f := by omega
        have hf : f < f + 1 := by omega
        simp only [natToStringAux, h10, if_false]
        rw [show digitsVal acc (natToStringAux f (n / 10) ++ [n % 10 + 48]) =
            digitsVal (digitsVal acc (natToStringAux f (n / 10))) [n % 10 + 48] from
          List.foldl_append _ _ _ _]
        rw [ih f hf (n / 10) acc hrec]
        have hd : digitsVal (acc * 10 ^ (natToStringAux f (n / 10)).length + n / 10)
            [n % 10 + 48] =
            (acc * 10 ^ (natToStringAux f (n / 10)).length + n / 10) * 10 + (n % 10) := by
          simp [digitsVal]
        rw [hd]
        have hlen : (natToStringAux f (n / 10) ++ [n % 10 + 48]).length =
            (natToStringAux f (n / 10)).length + 1 := by simp
        rw [hlen, pow_succ]
        have := Nat.div_add_mod n 10
        ring_nf
        omega

theorem convert_to_number_natToString (n : Nat) (h : n < 2 ^ 64) :
    convert_to_number (natToString n) = .ok n := by
  have hv : digitsVal 0 (natToString n) = n := by
    have := natToStringAux_val (n + 1) n 0 (by omega)
    simpa [natToString] using this
  have := convertToNumberGo_eval (natToString n) (natToString n) 0
    (natToString_digits n) (by rw [hv]; exact h)
  rw [hv] at this
  exact this

theorem wrap64_eq_self {x : Int} (h1 : -(2 ^ 63) ≤ x) (h2 : x < 2 ^ 63) : wrap64 x = x := by
  have e63 : (2 : Int) ^ 63 = 9223372036854775808 := by norm_num
  have e64 : (2 : Int) ^ 64 = 18446744073709551616 := by norm_num
  unfold wrap64
  rw [Int.emod_eq_of_lt (by omega) (by omega)]
  omega

theorem wrap64_top : wrap64 (2 ^ 63) = -(2 ^ 63) := by
  have e : ((2 : Int) ^ 63 + 2 ^ 63) = 2 ^ 64 := by norm_num
  unfold wrap64
  rw [e, Int.emod_self]
  norm_num

theorem read_number_encode (n : Nat) (t : List Nat) (hn : n < 2 ^ 64) :
    read_number (natToString n ++ 13 :: 10 :: t) = .ok (n, t) := by
  have hne : ¬(natToString n ++ 13 :: 10 :: t).isEmpty := by
    simp [natToString_ne_nil n]
  have hfind : findCRLF (natToString n ++ 13 :: 10 :: t) = some (natToString n).length :=
    findCRLF_append_crlf _ t (findCRLF_digits_none _ (natToString_digits n))
  have htake : (natToString n ++ 13 :: 10 :: t).take (natToString n).length = natToString n :=
    List.take_left _ _
  have happ : natToString n ++ 13 :: 10 :: t = (natToString n ++ [13, 10]) ++ t := by simp
  have hdrop : (natToString n ++ 13 :: 10 :: t).drop ((natToString n).length + 2) = t := by
    rw [happ]
    exact List.drop_left' (by simp)
  simp only [read_number, find_linebreak, hne, Bool.false_eq_true, if_false, hfind, htake,
    hdrop, convert_to_number_natToString n hn]

theorem parse_simple_string_encode (s t : List Nat) (h8 : utf8Valid s = true)
    (hcr : findCRLF s = none) :
    parse_simple_string (s ++ 13 :: 10 :: t) = .ok (.SimpleString s, t) := by
  have hne : ¬(s ++ 13 :: 10 :: t).isEmpty := by simp
  have hfind : findCRLF (s ++ 13 :: 10 :: t) = some s.length := findCRLF_append_crlf _ t hcr
  have htake : (s ++ 13 :: 10 :: t).take s.length = s := List.take_left _ _
  have hdrop : (s ++ 13 :: 10 :: t).drop (s.length + 2) = t := by
    rw [show s ++ 13 :: 10 :: t = (s ++ [13, 10]) ++ t from by simp]
    exact List.drop_left' (by simp)
  simp only [parse_simple_string, find_linebreak, hne, Bool.false_eq_true, if_false, hfind,
    htake, hdrop, h8, if_true]

theorem natToString_head (n : Nat) :
    ∃ d ds, natToString n = d :: ds ∧ 48 ≤ d ∧ d ≤ 57 := by
  cases h : natToString n with
  | nil => exact absurd h (natToString_ne_nil n)
  | cons d ds =>
    have := natToString_digits n d (by rw [h]; exact List.mem_cons_self d ds)
    exact ⟨d, ds, rfl, this.1, this.2⟩

theorem parse_integer_encode (n : Int) (t : List Nat)
    (h1 : -(2 ^ 63) ≤ n) (h2 : n < 2 ^ 63) :
    parse_integer (intToString n ++ 13 :: 10 :: t) = .ok (.Integer n, t) := by
  have e63 : (2 : Int) ^ 63 = 9223372036854775808 := by norm_num
  by_cases hneg : n < 0
  · have hits : intToString n = 45 :: natToString n.natAbs := by simp [intToString, hneg]
    have habs64 : (n.natAbs : Nat) < 2 ^ 64 := by
      have : (n.natAbs : Int) ≤ 2 ^ 63 := by omega
      have h64 : (2 : Nat) ^ 63 < 2 ^ 64 := by norm_num
      omega
    rw [hits]
    show parse_integer (45 :: (natToString n.natAbs ++ 13 :: 10 :: t)) = _
    rw [show parse_integer (45 :: (natToString n.natAbs ++ 13 :: 10 :: t)) =
        (match read_number (natToString n.natAbs ++ 13 :: 10 :: t) with
         | .panicked => .panicked
         | .fail e => .fail e
         | .ok (num, after) =>
           .ok (.Integer (wrap64 (-(wrap64 (num : Int)))), after)) from rfl,
      read_number_encode n.natAbs t habs64]
    have hres : wrap64 (-(wrap64 (n.natAbs : Int))) = n := by
      by_cases htop : (n.natAbs : Int) = 2 ^ 63
      · rw [htop, wrap64_top]
        have : n = -(2 ^ 63) := by omega
        rw [neg_neg, wrap64_top, this]
      · have habs : (n.natAbs : Int) < 2 ^ 63 := by omega
        rw [wrap64_eq_self (by omega) habs, wrap64_eq_self (by omega) (by omega)]
        omega
    exact congrArg (fun z => PResult.ok (Message.Integer z, t)) hres
  · have hge : 0 ≤ n := by omega
    have hits : intToString n = natToString n.toNat := by simp [intToString, hneg]
    obtain ⟨d, ds, hds, hd1, hd2⟩ := natToString_head n.toNat
    have htn64 : n.toNat < 2 ^ 64 := by
      have h64 : (2 : Nat) ^ 63 < 2 ^ 64 := by norm_num
      omega
    rw [hits, hds]
    show parse_integer (d :: (ds ++ 13 :: 10 :: t)) = _
    have hd45 : (d = 45) = False := by simp; omega
    have hd43 : (d = 43) = False := by simp; omega
    simp only [parse_integer, hd45, hd43, decide_False, Bool.or_false, Bool.false_eq_true,
      if_false]
    rw [show d :: (ds ++ 13 :: 10 :: t) = (d :: ds) ++ 13 :: 10 :: t from rfl, ← hds,
      read_number_encode n.toNat t htn64]
    have hval : wrap64 ((n.toNat : Int)) = n := by
      rw [Int.toNat_of_nonneg hge]
      exact wrap64_eq_self h1 h2
    exact congrArg (fun z => PResult.ok (Message.Integer z, t)) hval

theorem parse_null_bulk_encode (t : List Nat) :
    parse_bulk_string (45 :: 49 :: 13 :: 10 :: t) = .ok (.NullBulkString, t) := by
  have hlen : ¬((45 :: 49 :: 13 :: 10 :: t).length < 4) := by simp
  simp [parse_bulk_string, hlen]

theorem parse_bulk_string_encode (s t : List Nat) (h8 : utf8Valid s = true)
    (hlen : s.length < 2 ^ 64) (hm : s.length ≤ 5 ∨ s.take 5 ≠ redisMagic) :
    parse_bulk_string (natToString s.length ++ 13 :: 10 :: (s ++ 13 :: 10 :: t)) =
      .ok (.BulkString s, t) := by
  obtain ⟨d, ds, hds, hd1, hd2⟩ := natToString_head s.length
  have hne : ¬(natToString s.length ++ 13 :: 10 :: (s ++ 13 :: 10 :: t)).isEmpty := by
    simp [natToString_ne_nil]
  have hhead : (natToString s.length ++ 13 :: 10 :: (s ++ 13 :: 10 :: t)).head? = some d := by
    rw [hds]; rfl
  have hne45 : ¬(some d = some (45 : Nat)) := by simp; omega
  have hbulk : bulkStringBranch s.length (s ++ 13 :: 10 :: t) = .ok (.BulkString s, t) := by
    have hl1 : ¬((s ++ 13 :: 10 :: t).length < s.length) := by simp
    have htake : (s ++ 13 :: 10 :: t).take s.length = s := List.take_left _ _
    have hl2 : ¬((s ++ 13 :: 10 :: t).length < s.length + 2) := by simp
    have hdrop : (s ++ 13 :: 10 :: t).drop (s.length + 2) = t := by
      rw [show s ++ 13 :: 10 :: t = (s ++ [13, 10]) ++ t from by simp]
      exact List.drop_left' (by simp)
    simp only [bulkStringBranch, hl1, if_false, htake, h8, if_true, hl2, hdrop]
  simp only [parse_bulk_string, hne, Bool.false_eq_true, if_false, hhead, hne45, if_false,
    read_number_encode s.length (s ++ 13 :: 10 :: t) hlen]
  by_cases h5 : 5 < s.length
  · have hmagic : (s ++ 13 :: 10 :: t).take 5 ≠ redisMagic := by
      rw [List.take_append_of_le_length (by omega)]
      rcases hm with hm | hm
      · omega
      · exact hm
    have hlens : ¬((s ++ 13 :: 10 :: t).length = s.length) := by simp
    have hlt : ¬((s ++ 13 :: 10 :: t).length < s.length + 2) := by simp
    simp only [h5, if_true, hlens, if_false, hlt, hmagic, hbulk]
  · simp only [h5, if_false, hbulk]

theorem parseManyF_cons_simple (f n : Nat) (X : List Nat) :
    parseManyF (f + 1) (n + 1) (43 :: X) =
      (match parse_simple_string X with
       | .ok (m, r) =>
         (match parseManyF f n r with
          | .ok (ms, rr) => .ok (m :: ms, rr)
          | .fail e => .fail e
          | .panicked => .panicked)
       | .fail e => .fail e
       | .panicked => .panicked) := rfl

theorem parseManyF_cons_bulk (f n : Nat) (X : List Nat) :
    parseManyF (f + 1) (n + 1) (36 :: X) =
      (match parse_bulk_string X with
       | .ok (m, r) =>
         (match parseManyF f n r with
          | .ok (ms, rr) => .ok (m :: ms, rr)
          | .fail e => .fail e
          | .panicked => .panicked)
       | .fail e => .fail e
       | .panicked => .panicked) := rfl

theorem parseManyF_cons_integer (f n : Nat) (X : List Nat) :
    parseManyF (f + 1) (n + 1) (58 :: X) =
      (match parse_integer X with
       | .ok (m, r) =>
         (match parseManyF f n r with
          | .ok (ms, rr) => .ok (m :: ms, rr)
          | .fail e => .fail e
          | .panicked => .panicked)
       | .fail e => .fail e
       | .panicked => .panicked) := rfl

theorem parseManyF_cons_array (f n : Nat) (X : List Nat) :
    parseManyF (f + 1) (n + 1) (42 :: X) =
      (match
        (match read_number X with
         | .panicked => .panicked
         | .fail e => .fail e
         | .ok (array_len, d) =>
           match parseManyF f array_len d with
           | .ok (items, r) => .ok (Message.Array items, r)
           | .fail e => .fail e
           | .panicked => .panicked : PResult (Message × List Nat)) with
       | .ok (m, r) =>
         (match parseManyF f n r with
          | .ok (ms, rr) => .ok (m :: ms, rr)
          | .fail e => .fail e
          | .panicked => .panicked)
       | .fail e => .fail e
       | .panicked => .panicked) := rfl

theorem parseManyF_encode :
    ∀ f (l : List Message) (rest : List Nat), wfListNoSnapshot l = true →
      (listToData l).length < f →
      parseManyF f l.length (listToData l ++ rest) = .ok (l, rest) := by
  intro f
  induction f using Nat.strong_induction_on with
  | _ f ih =>
    intro l rest hwf hlen
    match l with
    | [] =>
      simp only [listToData, List.nil_append, List.length_nil]
      cases f with
      | zero => rfl
      | succ f2 => rfl
    | c :: cs =>
      have hlc := toData_length_pos c
      simp only [listToData, List.length_append] at hlen
      simp only [wfListNoSnapshot, Bool.and_eq_true] at hwf
      obtain ⟨hwfc, hwfcs⟩ := hwf
      obtain ⟨f2, rfl⟩ : ∃ f2, f = f2 + 1 := ⟨f - 1, by omega⟩
      have hcs : (listToData cs).length < f2 := by omega
      have hf2 : f2 < f2 + 1 := by omega
      have hihcs := ih f2 hf2 cs rest hwfcs hcs
      cases c with
      | SimpleString s =>
        simp only [wfNoSnapshot, Bool.and_eq_true, Option.isNone_iff_eq_none] at hwfc
        obtain ⟨h8, hcr⟩ := hwfc
        have hdata : listToData (Message.SimpleString s :: cs) ++ rest =
            43 :: (s ++ 13 :: 10 :: (listToData cs ++ rest)) := by
          simp [listToData, toData, add_cr_nl]
        rw [show (Message.SimpleString s :: cs).length = cs.length + 1 from rfl]
        rw [show listToData (Message.SimpleString s :: cs) ++ rest =
          43 :: (s ++ 13 :: 10 :: (listToData cs ++ rest)) from hdata]
        rw [parseManyF_cons_simple, parse_simple_string_encode s _ h8 hcr]
        simp [hihcs]
      | BulkString s =>
        simp only [wfNoSnapshot, Bool.and_eq_true, Bool.or_eq_true, decide_eq_true_eq] at hwfc
        obtain ⟨⟨h8, hs64⟩, hm⟩ := hwfc
        have hdata : listToData (Message.BulkString s :: cs) ++ rest =
            36 :: (natToString s.length ++ 13 :: 10 :: (s ++ 13 :: 10 ::
              (listToData cs ++ rest))) := by
          simp [listToData, toData, add_len, add_cr_nl]
        rw [show (Message.BulkString s :: cs).length = cs.length + 1 from rfl]
        rw [show listToData (Message.BulkString s :: cs) ++ rest =
          36 :: (natToString s.length ++ 13 :: 10 :: (s ++ 13 :: 10 ::
            (listToData cs ++ rest))) from hdata]
        rw [parseManyF_cons_bulk, parse_bulk_string_encode s _ h8 hs64 hm]
        simp [hihcs]
      | NullBulkString =>
        have hdata : listToData (Message.NullBulkString :: cs) ++ rest =
            36 :: (45 :: 49 :: 13 :: 10 :: (listToData cs ++ rest)) := by
          simp [listToData, toData]
        rw [show (Message.NullBulkString :: cs).length = cs.length + 1 from rfl]
        rw [show listToData (Message.NullBulkString :: cs) ++ rest =
          36 :: (45 :: 49 :: 13 :: 10 :: (listToData cs ++ rest)) from hdata]
        rw [parseManyF_cons_bulk, parse_null_bulk_encode]
        simp [hihcs]
      | Integer n =>
        simp only [wfNoSnapshot, Bool.and_eq_true, decide_eq_true_eq] at hwfc
        obtain ⟨hn1, hn2⟩ := hwfc
        have hdata : listToData (Message.Integer n :: cs) ++ rest =
            58 :: (intToString n ++ 13 :: 10 :: (listToData cs ++ rest)) := by
          simp [listToData, toData, add_cr_nl]
        rw [show (Message.Integer n :: cs).length = cs.length + 1 from rfl]
        rw [show listToData (Message.Integer n :: cs) ++ rest =
          58 :: (intToString n ++ 13 :: 10 :: (listToData cs ++ rest)) from hdata]
        rw [parseManyF_cons_integer, parse_integer_encode n _ hn1 hn2]
        simp [hihcs]
      | Array arr =>
        simp only [wfNoSnapshot, Bool.and_eq_true, decide_eq_true_eq] at hwfc
        obtain ⟨harr64, hwfarr⟩ := hwfc
        have hnts : 0 < (natToString arr.length).length :=
          List.length_pos.mpr (natToString_ne_nil _)
        have htd : (toData (Message.Array arr)).length =
            1 + ((natToString arr.length).length + 2) + (listToData arr).length := by
          simp [toData, add_len, add_cr_nl]
          omega
        have harrlen : (listToData arr).length < f2 := by
          rw [htd] at hlen; omega
        have hdata : listToData (Message.Array arr :: cs) ++ rest =
            42 :: (natToString arr.length ++ 13 :: 10 ::
              (listToData arr ++ (listToData cs ++ rest))) := by
          simp [listToData, toData, add_len, add_cr_nl]
        rw [show (Message.Array arr :: cs).length = cs.length + 1 from rfl]
        rw [show listToData (Message.Array arr :: cs) ++ rest =
          42 :: (natToString arr.length ++ 13 :: 10 ::
            (listToData arr ++ (listToData cs ++ rest))) from hdata]
        rw [parseManyF_cons_array, read_number_encode arr.length _ harr64]
        simp [ih f2 hf2 arr (listToData cs ++ rest) hwfarr harrlen, hihcs]
      | RdbFile content => simp [wfNoSnapshot] at hwfc

theorem parse_encode (m : Message) (h : wfNoSnapshot m = true) :
    parse (toData m) = .ok (m, []) := by
  have hlen1 : 0 < (toData m).length := toData_length_pos m
  have hwl : wfListNoSnapshot [m] = true := by
    simp [wfListNoSnapshot, h]
  have hmain := parseManyF_encode ((toData m).length + 1) [m] [] hwl
    (by simp [listToData])
  rw [show listToData [m] ++ [] = toData m from by simp [listToData]] at hmain
  have hne : (toData m).isEmpty = false := by
    cases hdata : toData m with
    | nil => rw [hdata] at hlen1; simp at hlen1
    | cons b bs => rfl
  rw [show ([m] : List Message).length = 1 from rfl] at hmain
  simp only [parse, hne, Bool.false_eq_true, if_false, hmain]

theorem parse_data_encode (m : Message) (h : wfNoSnapshot m = true) :
    parse_data (toData m) = .ok [m] := by
  have hlen1 : 0 < (toData m).length := toData_length_pos m
  obtain ⟨k, hk⟩ : ∃ k, (toData m).length = k + 1 := ⟨(toData m).length - 1, by omega⟩
  have hne : (toData m).isEmpty = false := by
    cases hdata : toData m with
    | nil => rw [hdata] at hlen1; simp at hlen1
    | cons b bs => rfl
  have hpd : parseDataF (k + 1) [] = .ok [] := by simp [parseDataF]
  simp only [parse_data, hk, parseDataF, hne, Bool.false_eq_true, if_false,
    parse_encode m h, hpd]

/-- C1 (counterexample): the round-trip claim fails as stated.  The
frame `SimpleString "a\r\nb"` (no Snapshot inside) re-decodes as
`SimpleString "a"` followed by junk, and `BulkString "REDIS1"`
re-decodes as a Snapshot because the decoder's terminator check is
vacuous, so in both cases `parse_data (to_data f)` is not `[f]`. -/
theorem c1_decode_encode_counterexample :
    parse_data (toData (.SimpleString [97, 13, 10, 98])) ≠
      .ok [.SimpleString [97, 13, 10, 98]] ∧
    parse_data (toData (.BulkString [82, 69, 68, 73, 83, 49])) ≠
      .ok [.BulkString [82, 69, 68, 73, 83, 49]] := by
  constructor
  · intro h
    rw [show toData (.SimpleString [97, 13, 10, 98]) = [43, 97, 13, 10, 98, 13, 10] from by
      simp [toData, add_cr_nl]] at h
    rw [show parse_data [43, 97, 13, 10, 98, 13, 10] =
      .fail (.UnknownMessage 98) from rfl] at h
    exact PResult.noConfusion h
  · intro h
    rw [show toData (.BulkString [82, 69, 68, 73, 83, 49]) =
      [36, 54, 13, 10, 82, 69, 68, 73, 83, 49, 13, 10] from by
      simp [toData, add_len, add_cr_nl, natToString, natToStringAux]] at h
    rw [show parse_data [36, 54, 13, 10, 82, 69, 68, 73, 83, 49, 13, 10] =
      .fail (.UnknownMessage 13) from rfl] at h
    exact PResult.noConfusion h

/-- C1 (amended): for every frame `f` that contains no Snapshot and is
well-formed (its strings are valid UTF-8, its SimpleStrings contain no
CR LF, its BulkStrings of length over 5 do not begin with the REDIS
magic, its integers are signed 64-bit, its lengths fit a usize),
decoding the byte encoding of `f` yields exactly `[f]`:
`parse_data (to_data f) = [f]`. -/
theorem c1_decode_encode_roundtrip (m : Message) (h : wfNoSnapshot m = true) :
    parse_data (toData m) = .ok [m] :=
  parse_data_encode m h

theorem c1_decode_encode_roundtrip_witness :
    wfNoSnapshot (.Array [.SimpleString [79, 75], .BulkString [82, 69, 68, 73, 83],
      .NullBulkString, .Integer (-9223372036854775808),
      .Array [.BulkString [104, 105]]]) = true ∧
    parse_data (toData (.Array [.SimpleString [79, 75], .BulkString [82, 69, 68, 73, 83],
      .NullBulkString, .Integer (-9223372036854775808),
      .Array [.BulkString [104, 105]]])) =
      .ok [.Array [.SimpleString [79, 75], .BulkString [82, 69, 68, 73, 83],
        .NullBulkString, .Integer (-9223372036854775808),
        .Array [.BulkString [104, 105]]]] := by
  have hwf : wfNoSnapshot (.Array [.SimpleString [79, 75], .BulkString [82, 69, 68, 73, 83],
      .NullBulkString, .Integer (-9223372036854775808),
      .Array [.BulkString [104, 105]]]) = true := by
    simp only [wfNoSnapshot, wfListNoSnapshot]
    decide
  exact ⟨hwf, c1_decode_encode_roundtrip _ hwf⟩

/-- C4 (code evaluated at the failing input): a `$`-prefixed frame with
declared length 6 and payload `REDIS1` followed by CR LF is decoded as
`Snapshot(REDIS1)` with the CR LF left unconsumed (so `parse_data`
then fails on the dangling terminator), although the claim and the
source comment require a BulkString whenever the payload is followed by
CR LF.  The source's terminator check compares the one-byte slice
`data[size + 1..size + 2]` with the two bytes CR LF and is therefore
vacuously true. -/
theorem c4_snapshot_disambiguation_bug :
    parse [36, 54, 13, 10, 82, 69, 68, 73, 83, 49, 13, 10] =
      .ok (.RdbFile [82, 69, 68, 73, 83, 49], [13, 10]) ∧
    parse_data [36, 54, 13, 10, 82, 69, 68, 73, 83, 49, 13, 10] =
      .fail (.UnknownMessage 13) :=
  ⟨rfl, rfl⟩

/-- C5 (code evaluated at the failing inputs): the decoder is not
total.  On the one-byte buffer `+` the `usize` subtraction
`data.len() - 1` in `find_linebreak` underflows and the loop reads out
of bounds: a panic.  On `$3\r\nab` the declared length overruns the
buffer and the slice `data[..size]` panics instead of returning a
classified error. -/
theorem c5_parser_panics :
    parse_data [43] = .panicked ∧
    parse_data [36, 51, 13, 10, 97, 98] = .panicked :=
  ⟨rfl, rfl⟩

/-- C10: decoding an empty byte buffer is not an error: `parse_data`
on the empty buffer returns Ok with the empty list of frames. -/
theorem c10_parse_data_empty : parse_data [] = .ok [] := rfl

/-- C3 (counterexample): the claim fails as stated for extreme expiry
arguments.  After a successful `SET k v1`, a `SET k v2 PX t` with
`t = i64::MIN` (which is `≤ 0`) fails in `TimeDelta::try_milliseconds`
without touching the store, so the immediately following GET returns
`v1`, not NullBulkString; and `SET k v PX t` with `t = i64::MAX > 0`
panics in `Utc::now() + delta` (outside the `DateTime` range) instead
of storing the entry. -/
theorem c3_set_px_get_counterexample :
    db_set [] 0 (.BulkString [107]) (.BulkString [49]) none =
      .ok [(.BulkString [107], .BulkString [49], none)] ∧
    db_set [(.BulkString [107], .BulkString [49], none)] 1000000
      (.BulkString [107]) (.BulkString [50]) (some (-(2 ^ 63))) =
      .fail .timedeltaConstruction ∧
    db_get [(.BulkString [107], .BulkString [49], none)] 2000000 (.BulkString [107]) =
      some (.BulkString [49]) ∧
    (.BulkString [49] : Message) ≠ .NullBulkString ∧
    db_set [] 0 (.BulkString [107]) (.BulkString [49]) (some (2 ^ 63 - 1)) = .panicked := by
  refine ⟨rfl, by norm_num [db_set], ?_, by simp, ?_⟩
  · simp [db_get, store_lookup, beqMessage]
  · norm_num [db_set, dtMinNs, dtMaxNs]

/-- C3 (amended): for every store, key `k`, value `v` and signed 64-bit
`t` other than `i64::MIN`, with the expiry instant `s + t` ms inside
the chrono `DateTime` range: `SET k v PX t` at instant `s` stores the
entry with expiry `s + t` ms; a GET at any instant up to and including
the expiry returns `v`; a GET strictly after it returns NullBulkString;
in particular for `t ≤ 0` any GET strictly after the SET returns
NullBulkString.  A `SET k v` with no expiry stores a never-expiring
entry and any later GET returns `v`. -/
theorem c3_set_px_get (st : Store) (k v : Message) (t s : Int)
    (ht1 : -(2 ^ 63) < t) (ht2 : t < 2 ^ 63)
    (hr1 : dtMinNs ≤ s + t * 1000000) (hr2 : s + t * 1000000 ≤ dtMaxNs) :
    db_set st s k v (some t) = .ok ((k, v, some (s + t * 1000000)) :: st) ∧
    (∀ g, g ≤ s + t * 1000000 →
      db_get ((k, v, some (s + t * 1000000)) :: st) g k = some v) ∧
    (∀ g, s + t * 1000000 < g →
      db_get ((k, v, some (s + t * 1000000)) :: st) g k = some .NullBulkString) ∧
    (t ≤ 0 → ∀ g, s < g →
      db_get ((k, v, some (s + t * 1000000)) :: st) g k = some .NullBulkString) ∧
    db_set st s k v none = .ok ((k, v, none) :: st) ∧
    (∀ g, db_get ((k, v, none) :: st) g k = some v) := by
  have hset : db_set st s k v (some t) = .ok ((k, v, some (s + t * 1000000)) :: st) := by
    have hne : ¬(t = -(2 ^ 63)) := by omega
    have hin : ¬(s + t * 1000000 < dtMinNs || dtMaxNs < s + t * 1000000) = true := by
      simp only [Bool.or_eq_true, decide_eq_true_eq]
      omega
    simp only [db_set, hne, if_false, hin, Bool.not_eq_true]
    simp [hin]
  refine ⟨hset, ?_, ?_, ?_, rfl, ?_⟩
  · intro g hg
    simp [db_get, store_lookup, beqMessage_refl, hg]
  · intro g hg
    simp [db_get, store_lookup, beqMessage_refl, show ¬(g ≤ s + t * 1000000) from by omega]
  · intro ht0 g hg
    simp [db_get, store_lookup, beqMessage_refl,
      show ¬(g ≤ s + t * 1000000) from by nlinarith]
  · intro g
    simp [db_get, store_lookup, beqMessage_refl]

theorem c3_set_px_get_witness :
    (-(2 ^ 63) < (50 : Int) ∧ (50 : Int) < 2 ^ 63 ∧
      dtMinNs ≤ (0 : Int) + 50 * 1000000 ∧ (0 : Int) + 50 * 1000000 ≤ dtMaxNs) ∧
    (db_set [] 0 (.BulkString [107]) (.BulkString [118]) (some 50) =
      .ok [(.BulkString [107], .BulkString [118], some 50000000)] ∧
     db_get [(.BulkString [107], .BulkString [118], some 50000000)] 10000000
        (.BulkString [107]) = some (.BulkString [118]) ∧
     db_get [(.BulkString [107], .BulkString [118], some 50000000)] 200000000
        (.BulkString [107]) = some .NullBulkString) := by
  have hb : -(2 ^ 63) < (50 : Int) ∧ (50 : Int) < 2 ^ 63 ∧
      dtMinNs ≤ (0 : Int) + 50 * 1000000 ∧ (0 : Int) + 50 * 1000000 ≤ dtMaxNs := by
    refine ⟨by norm_num, by norm_num, by norm_num [dtMinNs], by norm_num [dtMaxNs]⟩
  obtain ⟨h1, h2, h3, h4, h5, h6⟩ :=
    c3_set_px_get [] (.BulkString [107]) (.BulkString [118]) 50 0
      hb.1 hb.2.1 hb.2.2.1 hb.2.2.2
  have e : (0 : Int) + 50 * 1000000 = 50000000 := by norm_num
  refine ⟨hb, ?_, ?_, ?_⟩
  · rw [e] at h1; exact h1
  · have := h2 10000000 (by norm_num)
    rw [e] at this; exact this
  · have := h3 200000000 (by norm_num)
    rw [e] at this; exact this

/-- C9: a GET never modifies the store.  For every frame that parses to
a `Get` command, the leader handler returns a state whose store (and
PSYNC flag) is exactly the input state, replying with one frame and
publishing nothing; and an entry whose expiry has passed is not
removed: it is still looked up by every later GET, which again observes
NullBulkString. -/
theorem c9_get_pure (config : ServerConfig) (st : HandlerState) (now : Int)
    (message : Message) (k : Message)
    (hp : parse_command message = .ok (.Get k)) :
    (∃ r, MessageHandler.handle config st now message = .ok (st, [r], [])) ∧
    (∀ storage v e now2 now3, store_lookup storage k = some (v, some e) →
      e < now2 → now2 ≤ now3 →
      db_get storage now2 k = some .NullBulkString ∧
      db_get storage now3 k = some .NullBulkString) := by
  constructor
  · cases hg : db_get st.store now k with
    | none =>
      refine ⟨.NullBulkString, ?_⟩
      simp only [MessageHandler.handle, hp, hg]
    | some v =>
      refine ⟨v, ?_⟩
      simp only [MessageHandler.handle, hp, hg]
  · intro storage v e now2 now3 hlook he hle
    constructor
    · simp [db_get, hlook, show ¬(now2 ≤ e) from by omega]
    · simp [db_get, hlook, show ¬(now3 ≤ e) from by omega]

theorem c9_get_pure_witness :
    parse_command (.Array [.BulkString [71, 69, 84], .BulkString [107]]) =
      .ok (.Get (.BulkString [107])) ∧
    (∃ r, MessageHandler.handle ⟨.Leader, [], 0, 0⟩
      ⟨[(.BulkString [107], .BulkString [118], some 5)], false⟩ 99
      (.Array [.BulkString [71, 69, 84], .BulkString [107]]) =
      .ok (⟨[(.BulkString [107], .BulkString [118], some 5)], false⟩, [r], [])) ∧
    db_get [(.BulkString [107], .BulkString [118], some 5)] 99 (.BulkString [107]) =
      some .NullBulkString ∧
    db_get [(.BulkString [107], .BulkString [118], some 5)] 100 (.BulkString [107]) =
      some .NullBulkString := by
  have hp : parse_command (.Array [.BulkString [71, 69, 84], .BulkString [107]]) =
      .ok (.Get (.BulkString [107])) := rfl
  have h := c9_get_pure ⟨.Leader, [], 0, 0⟩
    ⟨[(.BulkString [107], .BulkString [118], some 5)], false⟩ 99
    (.Array [.BulkString [71, 69, 84], .BulkString [107]]) (.BulkString [107]) hp
  have hlook : store_lookup [(.BulkString [107], .BulkString [118], some 5)]
      (.BulkString [107]) = some (.BulkString [118], some 5) := by
    simp [store_lookup, beqMessage]
  have h2 := h.2 [(.BulkString [107], .BulkString [118], some 5)]
    (.BulkString [118]) 5 99 100 hlook (by norm_num) (by norm_num)
  exact ⟨hp, h.1, h2.1, h2.2⟩

/-- C6 (counterexample): the WriteEvent is not the original Array frame
verbatim.  For the client frame `["set", "k", "v"]` (lowercase command
word) the published frame is the re-encoded `["SET", "k", "v"]`, which
differs byte-for-byte from what the client sent. -/
theorem c6_writeevent_counterexample :
    MessageHandler.handle ⟨.Leader, [], 0, 0⟩ ⟨[], false⟩ 0
      (.Array [.BulkString [115, 101, 116], .BulkString [107], .BulkString [118]]) =
      .ok (⟨[(.BulkString [107], .BulkString [118], none)], false⟩,
        [.SimpleString [79, 75]],
        [.Array [.BulkString [83, 69, 84], .BulkString [107], .BulkString [118]]]) ∧
    (.Array [.BulkString [83, 69, 84], .BulkString [107], .BulkString [118]] : Message) ≠
      .Array [.BulkString [115, 101, 116], .BulkString [107], .BulkString [118]] :=
  ⟨rfl, by simp⟩

/-- C6 (amended): for every SET command accepted by the leader engine,
the published WriteEvent is the re-encoding `Command::to_message` of
the parsed command: the Array `[SET, key, value]` with the command word
canonicalised to uppercase `SET`, extended, when an expiry was parsed,
by a `SET` marker (sic - the source pushes the literal `SET` where `PX`
belongs) and the canonical decimal of the expiry.  It equals the
original frame only when the original already had exactly this form. -/
theorem c6_writeevent_canonical (config : ServerConfig) (st : HandlerState) (now : Int)
    (message : Message) (k v : Message) (t : Option Int) (st2 : Store)
    (hp : parse_command message = .ok (.Set k v t))
    (hs : db_set st.store now k v t = .ok st2) :
    MessageHandler.handle config st now message =
      .ok (⟨st2, st.replication_client_ack⟩, [.SimpleString (ascii "OK")],
        [.Array ([.BulkString (ascii "SET"), k, v] ++
          (match t with
           | some time => [.BulkString (ascii "SET"), .BulkString (intToString time)]
           | none => []))]) := by
  cases t with
  | none => simp only [MessageHandler.handle, hp, hs, Command.to_message]
  | some time => simp only [MessageHandler.handle, hp, hs, Command.to_message]

theorem c6_writeevent_canonical_witness :
    parse_command (.Array [.BulkString [83, 69, 84], .BulkString [107], .BulkString [118],
        .BulkString [80, 88], .BulkString [49, 48, 48]]) =
      .ok (.Set (.BulkString [107]) (.BulkString [118]) (some 100)) ∧
    db_set ([] : Store) 0 (.BulkString [107]) (.BulkString [118]) (some 100) =
      .ok [(.BulkString [107], .BulkString [118], some 100000000)] ∧
    MessageHandler.handle ⟨.Leader, [], 0, 0⟩ ⟨[], false⟩ 0
      (.Array [.BulkString [83, 69, 84], .BulkString [107], .BulkString [118],
        .BulkString [80, 88], .BulkString [49, 48, 48]]) =
      .ok (⟨[(.BulkString [107], .BulkString [118], some 100000000)], false⟩,
        [.SimpleString [79, 75]],
        [.Array [.BulkString [83, 69, 84], .BulkString [107], .BulkString [118],
          .BulkString [83, 69, 84], .BulkString [49, 48, 48]]]) := by
  refine ⟨rfl, rfl, ?_⟩
  exact c6_writeevent_canonical ⟨.Leader, [], 0, 0⟩ ⟨[], false⟩ 0
    (.Array [.BulkString [83, 69, 84], .BulkString [107], .BulkString [118],
      .BulkString [80, 88], .BulkString [49, 48, 48]])
    (.BulkString [107]) (.BulkString [118]) (some 100)
    [(.BulkString [107], .BulkString [118], some 100000000)] rfl rfl

/-- C7 (counterexample): the command parser does not return a parse
error on a known command word with a wrong element count: `ECHO` with
no payload panics on the out-of-bounds index `vec[1]`. -/
theorem c7_arity_counterexample :
    parse_command (.Array [.BulkString [69, 67, 72, 79]]) = .panicked := rfl

/-- C7 (amended): an Array whose first element is a bulk string with an
ASCII command word that uppercases to none of the known words yields
the unknown-command error; but known command words with a wrong element
count panic instead of erroring: ECHO with no payload, GET with no key,
SET with fewer than three elements, SET with a PX marker and no
following value (`messages[4]` out of bounds), and SET with a
non-numeric expiry value (`parse().unwrap()`). -/
theorem c7_unknown_and_arity (w : List Nat) (vec : List Message)
    (hascii : ∀ b ∈ w, b < 128)
    (hw1 : to_uppercase_ascii w ≠ ascii "PING")
    (hw2 : to_uppercase_ascii w ≠ ascii "ECHO")
    (hw3 : to_uppercase_ascii w ≠ ascii "SET")
    (hw4 : to_uppercase_ascii w ≠ ascii "GET")
    (hw5 : to_uppercase_ascii w ≠ ascii "INFO")
    (hw6 : to_uppercase_ascii w ≠ ascii "REPLCONF")
    (hw7 : to_uppercase_ascii w ≠ ascii "PSYNC")
    (hw8 : to_uppercase_ascii w ≠ ascii "WAIT") :
    handle_array (.BulkString w :: vec) = .fail (.unknownCommand w) ∧
    parse_command (.Array [.BulkString [69, 67, 72, 79]]) = .panicked ∧
    parse_command (.Array [.BulkString [71, 69, 84]]) = .panicked ∧
    parse_command (.Array [.BulkString [83, 69, 84], .BulkString [107]]) = .panicked ∧
    parse_command (.Array [.BulkString [83, 69, 84], .BulkString [107], .BulkString [118],
      .BulkString [80, 88]]) = .panicked ∧
    parse_command (.Array [.BulkString [83, 69, 84], .BulkString [107], .BulkString [118],
      .BulkString [80, 88], .BulkString [120]]) = .panicked := by
  refine ⟨?_, rfl, rfl, rfl, rfl, rfl⟩
  simp only [handle_array, List.head?]
  rw [if_neg hw1, if_neg hw2, if_neg hw3, if_neg hw4, if_neg hw5, if_neg hw6, if_neg hw7,
    if_neg hw8]

theorem c7_unknown_and_arity_witness :
    (∀ b ∈ [70, 79, 79], b < 128) ∧
    handle_array [.BulkString [70, 79, 79]] = .fail (.unknownCommand [70, 79, 79]) := by
  have ha : ∀ b ∈ [70, 79, 79], b < 128 := by decide
  exact ⟨ha, (c7_unknown_and_arity [70, 79, 79] [] ha (by decide) (by decide) (by decide)
    (by decide) (by decide) (by decide) (by decide) (by decide)).1⟩

/-- C8 (counterexample): not every command outside Ping, Set and
Replconf-GETACK produces a protocol error on the follower apply path.
An inbound `INFO replication` frame parses to `Info`, and the bail arm
formats `command.to_message()`, which is `unimplemented!()` for `Info`:
the follower panics instead of returning an error. -/
theorem c8_follower_apply_counterexample :
    ReplicationHandler.handle [] 0 ⟨0⟩
      (.Array [.BulkString [73, 78, 70, 79],
        .BulkString [114, 101, 112, 108, 105, 99, 97, 116, 105, 111, 110]]) = .panicked := rfl

/-- C8 (amended): on the follower apply path, with the byte counter
always bumped by the frame's serialized length first: Ping applies
nothing and produces no reply; Set applies to the local store,
republishes the canonical re-encoding, and produces no reply (never an
OK); Replconf GETACK replies with ACK of the pre-increment counter;
Replconf with any other name is a protocol error; Echo and Get are
protocol errors; but Info, Psync and Wait panic (the bail formats
`command.to_message()`, which is `unimplemented!()` for them) instead
of producing an error. -/
theorem c8_follower_apply (db : Store) (now : Int) (h : ReplicationHandler) (m : Message) :
    (parse_command m = .ok .Ping →
      ReplicationHandler.handle db now h m =
        .ok (⟨wrap64 (h.bytes_acknowledged + ((toData m).length : Int))⟩, db, none, [])) ∧
    (∀ k v t db2, parse_command m = .ok (.Set k v t) → db_set db now k v t = .ok db2 →
      ReplicationHandler.handle db now h m =
        .ok (⟨wrap64 (h.bytes_acknowledged + ((toData m).length : Int))⟩, db2, none,
          [.Array ([.BulkString (ascii "SET"), k, v] ++
            (match t with
             | some time => [.BulkString (ascii "SET"), .BulkString (intToString time)]
             | none => []))])) ∧
    (∀ name value, parse_command m = .ok (.Replconf name value) →
      to_uppercase_ascii name = ascii "GETACK" →
      ReplicationHandler.handle db now h m =
        .ok (⟨wrap64 (h.bytes_acknowledged + ((toData m).length : Int))⟩, db,
          some (get_replconf_command (ascii "ACK") (intToString h.bytes_acknowledged)), [])) ∧
    (∀ name value, parse_command m = .ok (.Replconf name value) →
      to_uppercase_ascii name ≠ ascii "GETACK" →
      ReplicationHandler.handle db now h m = .fail .onlyGetackImplemented) ∧
    (∀ x, parse_command m = .ok (.Echo x) →
      ReplicationHandler.handle db now h m =
        .fail (.wrongCommandForReplication (.Array [.BulkString (ascii "ECHO"), x]))) ∧
    (∀ k, parse_command m = .ok (.Get k) →
      ReplicationHandler.handle db now h m =
        .fail (.wrongCommandForReplication (.Array [.BulkString (ascii "GET"), k]))) ∧
    (∀ ss, parse_command m = .ok (.Info ss) →
      ReplicationHandler.handle db now h m = .panicked) ∧
    (parse_command m = .ok .Psync → ReplicationHandler.handle db now h m = .panicked) ∧
    (parse_command m = .ok .Wait → ReplicationHandler.handle db now h m = .panicked) := by
  refine ⟨?_, ?_, ?_, ?_, ?_, ?_, ?_, ?_, ?_⟩
  · intro hp
    simp only [ReplicationHandler.handle, hp]
  · intro k v t db2 hp hs
    cases t with
    | none => simp only [ReplicationHandler.handle, hp, hs, Command.to_message]
    | some time => simp only [ReplicationHandler.handle, hp, hs, Command.to_message]
  · intro name value hp hga
    simp only [ReplicationHandler.handle, hp]
    rw [if_neg (fun hne => hne hga)]
  · intro name value hp hga
    simp only [ReplicationHandler.handle, hp]
    rw [if_pos hga]
  · intro x hp
    simp only [ReplicationHandler.handle, hp, Command.to_message]
  · intro k hp
    simp only [ReplicationHandler.handle, hp, Command.to_message]
  · intro ss hp
    simp only [ReplicationHandler.handle, hp, Command.to_message]
  · intro hp
    simp only [ReplicationHandler.handle, hp, Command.to_message]
  · intro hp
    simp only [ReplicationHandler.handle, hp, Command.to_message]

theorem c8_follower_apply_witness :
    parse_command get_ping_command = .ok .Ping ∧
    ReplicationHandler.handle [] 0 ⟨0⟩ get_ping_command = .ok (⟨14⟩, [], none, []) := by
  have hp : parse_command get_ping_command = .ok .Ping := rfl
  have happ := (c8_follower_apply [] 0 ⟨0⟩ get_ping_command).1 hp
  have hl : ((toData get_ping_command).length : Int) = 14 := by
    simp [toData, get_ping_command, listToData, add_len, add_cr_nl, natToString,
      natToStringAux, ascii]
  rw [hl] at happ
  have hw : wrap64 ((0 : Int) + 14) = 14 := by
    rw [show (0 : Int) + 14 = 14 from by norm_num]
    exact wrap64_eq_self (by norm_num) (by norm_num)
  rw [hw] at happ
  exact ⟨hp, happ⟩

theorem replHandle_ok_bytes (db : Store) (now : Int) (h h3 : ReplicationHandler) (m : Message)
    (db3 : Store) (r : Option Message) (p : List Message)
    (hok : ReplicationHandler.handle db now h m = .ok (h3, db3, r, p)) :
    h3 = ⟨wrap64 (h.bytes_acknowledged + ((toData m).length : Int))⟩ := by
  simp only [ReplicationHandler.handle] at hok
  cases hp : parse_command m with
  | panicked => rw [hp] at hok; exact absurd hok (by simp)
  | fail e => rw [hp] at hok; exact absurd hok (by simp)
  | ok c =>
    rw [hp] at hok
    cases c with
    | Ping =>
      simp only [RRes.ok.injEq, Prod.mk.injEq] at hok
      exact hok.1.symm
    | Set k v t =>
      cases hs : db_set db now k v t with
      | panicked => simp [hs] at hok
      | fail e => simp [hs] at hok
      | ok db4 =>
        simp only [hs, Command.to_message, RRes.ok.injEq, Prod.mk.injEq] at hok
        exact hok.1.symm
    | Replconf name value =>
      by_cases hg : to_uppercase_ascii name = ascii "GETACK"
      · simp only [hg, ne_eq, not_true_eq_false, if_false, RRes.ok.injEq,
          Prod.mk.injEq] at hok
        exact hok.1.symm
      · simp [hg] at hok
    | Echo x => simp [Command.to_message] at hok
    | Get k => simp [Command.to_message] at hok
    | Info ss => simp [Command.to_message] at hok
    | Psync => simp [Command.to_message] at hok
    | Wait => simp [Command.to_message] at hok

theorem runRepl_bytes (now : Int) :
    ∀ ms (db : Store) (h h2 : ReplicationHandler) (db2 : Store),
      0 ≤ h.bytes_acknowledged →
      h.bytes_acknowledged + (ms.map fun m => ((toData m).length : Int)).sum < 2 ^ 63 →
      runRepl now db h ms = .ok (h2, db2) →
      h2.bytes_acknowledged =
        h.bytes_acknowledged + (ms.map fun m => ((toData m).length : Int)).sum := by
  intro ms
  induction ms with
  | nil =>
    intro db h h2 db2 _ _ hrun
    simp only [runRepl, RRes.ok.injEq, Prod.mk.injEq] at hrun
    rw [← hrun.1]
    simp
  | cons m ms ih =>
    intro db h h2 db2 h0 hb hrun
    simp only [runRepl] at hrun
    cases hh : ReplicationHandler.handle db now h m with
    | panicked => rw [hh] at hrun; exact absurd hrun (by simp)
    | fail e => rw [hh] at hrun; exact absurd hrun (by simp)
    | ok res =>
      obtain ⟨h3, db3, r, p⟩ := res
      rw [hh] at hrun
      have hst := replHandle_ok_bytes db now h h3 m db3 r p hh
      have hlen0 : (0 : Int) ≤ ((toData m).length : Int) := Int.natCast_nonneg _
      have hsum0 : 0 ≤ (ms.map fun x => ((toData x).length : Int)).sum := by
        apply List.sum_nonneg
        intro x hx
        obtain ⟨y, _, rfl⟩ := List.mem_map.mp hx
        exact Int.natCast_nonneg _
    /- the total of the cons list splits into head plus tail -/
      have hbsplit : h.bytes_acknowledged + (((toData m).length : Int) +
          (ms.map fun x => ((toData x).length : Int)).sum) < 2 ^ 63 := by
        simpa using hb
      have hwrap : wrap64 (h.bytes_acknowledged + ((toData m).length : Int)) =
          h.bytes_acknowledged + ((toData m).length : Int) := by
        apply wrap64_eq_self
        · have : (0 : Int) ≤ 2 ^ 63 := by norm_num
          omega
        · omega
      have h3bytes : h3.bytes_acknowledged =
          h.bytes_acknowledged + ((toData m).length : Int) := by
        rw [hst]
        exact hwrap
      have hres := ih db3 h3 h2 db2 (by omega) (by rw [h3bytes]; omega) hrun
      rw [hres, h3bytes]
      simp
      ring

/-- C2: after the follower has applied the frames `ms` (each bumping
`bytes_acknowledged` by its serialized length BEFORE execution), a
`REPLCONF GETACK *` frame is answered with the Array
`[REPLCONF, ACK, s]` where `s` is the decimal string of the sum of the
serialized byte-lengths of `ms`, not counting the GETACK frame itself
(whose length enters the counter only after the reply value was
taken). -/
theorem c2_getack_reports_preincrement (now : Int) (ms : List Message) (db db2 : Store)
    (h2 : ReplicationHandler)
    (hrun : runRepl now db ⟨0⟩ ms = .ok (h2, db2))
    (hsum : (ms.map fun m => ((toData m).length : Int)).sum < 2 ^ 63) :
    ReplicationHandler.handle db2 now h2
        (get_replconf_command (ascii "GETACK") (ascii "*")) =
      .ok (⟨wrap64 (h2.bytes_acknowledged +
          ((toData (get_replconf_command (ascii "GETACK") (ascii "*"))).length : Int))⟩, db2,
        some (.Array [.BulkString (ascii "REPLCONF"), .BulkString (ascii "ACK"),
          .BulkString (intToString ((ms.map fun m => ((toData m).length : Int)).sum))]), []) := by
  have hbytes := runRepl_bytes now ms db ⟨0⟩ h2 db2 (le_refl 0) (by simpa using hsum) hrun
  simp only [zero_add] at hbytes
  have hp : parse_command (get_replconf_command (ascii "GETACK") (ascii "*")) =
      .ok (.Replconf (ascii "GETACK") (.BulkString (ascii "*"))) := rfl
  have hga : to_uppercase_ascii (ascii "GETACK") = ascii "GETACK" := rfl
  simp only [ReplicationHandler.handle, hp]
  rw [if_neg (fun hne => hne hga), hbytes]
  rfl

theorem c2_getack_reports_preincrement_witness :
    runRepl 0 [] ⟨0⟩ [get_ping_command] = .ok (⟨14⟩, []) ∧
    ([get_ping_command].map fun m => ((toData m).length : Int)).sum < 2 ^ 63 ∧
    ReplicationHandler.handle [] 0 ⟨14⟩ (get_replconf_command (ascii "GETACK") (ascii "*")) =
      .ok (⟨51⟩, [], some (.Array [.BulkString [82, 69, 80, 76, 67, 79, 78, 70],
        .BulkString [65, 67, 75], .BulkString [49, 52]]), []) := by
  have hl : ((toData get_ping_command).length : Int) = 14 := by
    simp [toData, get_ping_command, listToData, add_len, add_cr_nl, natToString,
      natToStringAux, ascii]
  have hh : ReplicationHandler.handle [] 0 ⟨0⟩ get_ping_command =
      .ok (⟨wrap64 ((0 : Int) + ((toData get_ping_command).length : Int))⟩, [], none, []) := by
    simp only [ReplicationHandler.handle,
      show parse_command get_ping_command = .ok .Ping from rfl]
  rw [hl] at hh
  have hw : wrap64 ((0 : Int) + 14) = 14 := by
    rw [show (0 : Int) + 14 = 14 from by norm_num]
    exact wrap64_eq_self (by norm_num) (by norm_num)
  rw [hw] at hh
  have hrun : runRepl 0 [] ⟨0⟩ [get_ping_command] = .ok (⟨14⟩, []) := by
    simp only [runRepl, hh]
  have hsumEq : ([get_ping_command].map fun m => ((toData m).length : Int)).sum = 14 := by
    simp [hl]
  have hsum : ([get_ping_command].map fun m => ((toData m).length : Int)).sum < 2 ^ 63 := by
    rw [hsumEq]; norm_num
  have happ := c2_getack_reports_preincrement 0 [get_ping_command] [] [] ⟨14⟩ hrun hsum
  rw [hsumEq] at happ
  have hlg : ((toData (get_replconf_command (ascii "GETACK") (ascii "*"))).length : Int) = 37 := by
    simp [toData, get_replconf_command, listToData, add_len, add_cr_nl, natToString,
      natToStringAux, ascii]
  rw [hlg] at happ
  have hw2 : wrap64 ((14 : Int) + 37) = 51 := by
    rw [show (14 : Int) + 37 = 51 from by norm_num]
    exact wrap64_eq_self (by norm_num) (by norm_num)
  rw [hw2] at happ
  exact ⟨hrun, hsum, happ⟩

theorem parseManyF_cont_length (f k : Nat) (one : PResult (Message × List Nat))
    (ms : List Message) (rest : List Nat)
    (ih : ∀ n data ms2 rest2, parseManyF f n data = .ok (ms2, rest2) → ms2.length = n)
    (h : (match one with
      | .ok (m, r) =>
        (match parseManyF f k r with
         | .ok (ms2, rr) => (.ok (m :: ms2, rr) : PResult (List Message × List Nat))
         | .fail e => .fail e
         | .panicked => .panicked)
      | .fail e => .fail e
      | .panicked => .panicked) = .ok (ms, rest)) : ms.length = k + 1 := by
  cases one with
  | panicked => simp at h
  | fail e => simp at h
  | ok p =>
    obtain ⟨m, r⟩ := p
    have h3 : (match parseManyF f k r with
      | .ok (ms2, rr) => (.ok (m :: ms2, rr) : PResult (List Message × List Nat))
      | .fail e => .fail e
      | .panicked => .panicked) = .ok (ms, rest) := h
    cases hk : parseManyF f k r with
    | panicked => rw [hk] at h3; simp at h3
    | fail e => rw [hk] at h3; simp at h3
    | ok p2 =>
      obtain ⟨ms2, rr⟩ := p2
      rw [hk] at h3
      simp only [PResult.ok.injEq, Prod.mk.injEq] at h3
      rw [← h3.1]
      simp [ih k r ms2 rr hk]

theorem parseManyF_ok_length :
    ∀ f n data ms rest, parseManyF f n data = .ok (ms, rest) → ms.length = n := by
  intro f
  induction f with
  | zero =>
    intro n data ms rest h
    match n with
    | 0 =>
      simp only [parseManyF, PResult.ok.injEq, Prod.mk.injEq] at h
      rw [← h.1]
      rfl
    | k + 1 => simp [parseManyF] at h
  | succ f ih =>
    intro n data ms rest h
    match n with
    | 0 =>
      simp only [parseManyF, PResult.ok.injEq, Prod.mk.injEq] at h
      rw [← h.1]
      rfl
    | k + 1 =>
      match data with
      | [] => simp [parseManyF] at h
      | t :: rest0 =>
        by_cases h43 : t = 43
        · subst h43
          exact parseManyF_cont_length f k (parse_simple_string rest0) ms rest ih h
        · by_cases h36 : t = 36
          · subst h36
            exact parseManyF_cont_length f k (parse_bulk_string rest0) ms rest ih h
          · by_cases h58 : t = 58
            · subst h58
              exact parseManyF_cont_length f k (parse_integer rest0) ms rest ih h
            · by_cases h42 : t = 42
              · subst h42
                exact parseManyF_cont_length f k
                  (match read_number rest0 with
                   | .panicked => .panicked
                   | .fail e => .fail e
                   | .ok (array_len, d) =>
                     match parseManyF f array_len d with
                     | .ok (items, r) => .ok (Message.Array items, r)
                     | .fail e => .fail e
                     | .panicked => .panicked) ms rest ih h
              · simp only [parseManyF] at h
                rw [if_neg h43, if_neg h36, if_neg h58, if_neg h42] at h
                simp at h
